import Mathlib

/-!
Shallow embedding of the GradDFT predictor (`src/grad_dft/train.py`) and of the
PySCF interface helpers (`src/interface/pyscf.py`).

Machine floats are modelled by exact rationals; array values are total
functions on `Fin`-indexed coordinates (for the predictor) or flat
shape-tagged lists (for the numpy-level interface code).  Fallible Python
code (calling a `None` attribute, `assert`, `raise`) is modelled with
`Except String`.
-/

set_option autoImplicit false

instance exceptDecEq {ε α : Type} [DecidableEq ε] [DecidableEq α] :
    DecidableEq (Except ε α) := fun a b =>
  match a, b with
  | Except.error x, Except.error y =>
      if h : x = y then isTrue (by rw [h])
      else isFalse (fun hc => h (Except.error.inj hc))
  | Except.error x, Except.ok y => isFalse (fun hc => Except.noConfusion hc)
  | Except.ok x, Except.error y => isFalse (fun hc => Except.noConfusion hc)
  | Except.ok x, Except.ok y =>
      if h : x = y then isTrue (by rw [h])
      else isFalse (fun hc => h (Except.ok.inj hc))

namespace GradDFT

/-- Spin index: the code uses two spin channels throughout
(`fock.transpose(0, 2, 1)` acts per spin slice). -/
abbrev Spin := Fin 2

/-- A square orbital-indexed real matrix (entries modelled by `ℚ`). -/
abbrev Mat (n : ℕ) := Fin n → Fin n → ℚ

/-- A spin-indexed stack of square matrices, the shape of `rdm1` and `fock`. -/
abbrev SpinMat (n : ℕ) := Spin → Mat n

/-- The two-electron repulsion tensor `rep_tensor`, indexed `p q r t`. -/
abbrev Rep (n : ℕ) := Fin n → Fin n → Fin n → Fin n → ℚ

/-- Transpose of a square matrix, as in `fock.transpose(0, 2, 1)` per slice. -/
def Mat.transp {n : ℕ} (A : Mat n) : Mat n := fun i j => A j i

/-- Symmetry of a square matrix slice: `A == A^T` entrywise. -/
def Mat.IsSymm {n : ℕ} (A : Mat n) : Prop := ∀ i j, A i j = A j i

instance {n : ℕ} (A : Mat n) : Decidable A.IsSymm := by
  unfold Mat.IsSymm; infer_instance

/-- The fields of the `Molecule` pytree that `predict` reads directly:
`rdm1`, `h1e` and the optional `rep_tensor`
(`rep_tensor` may be absent: `_package_outputs` stores `None` in training mode). -/
structure Molecule (n : ℕ) where
  rdm1 : SpinMat n
  h1e : Mat n
  rep_tensor : Option (Rep n)

/-- A feature tensor as seen by the JAX tracer: a primal value `val` together
with the tangent/cotangent information `tan` that the differentiation pass
propagates.  `jax.lax.stop_gradient` keeps `val` and kills `tan`. -/
structure DVal where
  val : List ℚ
  tan : List ℚ
deriving DecidableEq

/-- Model of `jax.lax.stop_gradient` on a traced feature tensor: the primal
value is unchanged and the derivative part is zeroed out, so the result is a
function of `val` alone. -/
def stopGradient (x : DVal) : DVal :=
  { val := x.val, tan := x.val.map (fun _ => 0) }

/-- The type of the explicit-gradient hooks `functional.densitygrads` and
`functional.coefficient_input_grads`: they receive `params`, the molecule and
three optional feature tensors and return a spin-indexed matrix `vxc_expl`.
(The Python code also passes `functional` itself as the first argument; that
OO self-reference carries no data and is dropped here.) -/
abbrev Hook (P : Type) (n : ℕ) :=
  P → Molecule n → Option DVal → Option DVal → Option DVal → SpinMat n

/-- The capability record of a `Functional` as consumed by `predict` in
`src/grad_dft/train.py`.  `energyAndGrad` models
`value_and_grad(energy_and_grads, argnums=1)`: the opaque differentiable
energy together with its reverse-mode gradient with respect to `rdm1`
(the neural functional and JAX autodiff are external collaborators, so the
pair is an arbitrary function here).  The four optional feature generators
and the two optional explicit-gradient hooks are `Option`-valued, `None`
meaning the capability is absent. -/
structure Functional (P : Type) (n : ℕ) where
  energyAndGrad : P → Molecule n → ℚ × SpinMat n
  energy_densities : Option (Molecule n → DVal)
  nograd_densities : Option (Molecule n → DVal)
  combine_densities : DVal → DVal → DVal
  coefficient_inputs : Option (Molecule n → DVal)
  nograd_coefficient_inputs : Option (Molecule n → DVal)
  combine_inputs : DVal → DVal → DVal
  densitygrads : Option (Hook P n)
  coefficient_input_grads : Option (Hook P n)
  is_xc : Bool

/-- Calling an optional Python attribute: calling `None` raises a
`TypeError`, modelled as an `Except.error`. -/
def callOpt {α β : Type} (f : Option (α → β)) (a : α) : Except String β :=
  match f with
  | none => Except.error "TypeError: NoneType object is not callable"
  | some g => Except.ok (g a)

/-- `stop_gradient(functional.nograd_densities(molecule, ...))` as one step:
call the optional generator and stop-gradient its output. -/
def stopCall {n : ℕ} (f : Option (Molecule n → DVal)) (m : Molecule n) :
    Except String DVal :=
  (callOpt f m).map stopGradient

/-- Modelled from the spec: `symmetrize_rdm1` lives in `grad_dft/molecule.py`,
which is not among the provided sources.  The spec (§4.1 step 6) says
"symmetrize `rdm1` itself", i.e. each spin slice is replaced by its symmetric
part. -/
def symmetrize_rdm1 {n : ℕ} (rdm1 : SpinMat n) : SpinMat n :=
  fun s i j => (rdm1 s i j + rdm1 s j i) / 2

/-- Modelled from the spec: `coulomb_potential` lives in
`grad_dft/molecule.py`, which is not among the provided sources.  The spec
(§4.1 step 6) says it is "the classical Coulomb potential term built from the
full `rdm1` and the two-electron repulsion tensor"; the contraction pattern
`pqrt,srt->spq` is the one written next to `rep_tensor` in
`src/interface/pyscf.py` (line 464). -/
def coulomb_potential {n : ℕ} (dm : SpinMat n) (rep : Rep n) : SpinMat n :=
  fun s p q => ∑ r : Fin n, ∑ t : Fin n, rep p q r t * dm s r t

/-- The density-feature channel selection of `predict`
(`src/grad_dft/train.py` lines 140-153).  Returns
`(densities, grad_densities, nograd_densities)`; the branching mirrors the
Python truthiness tests on `functional.energy_densities` and
`functional.densitygrads`, and an absent `nograd_densities` generator that
does get called is a `TypeError`. -/
def densityChannels {P : Type} {n : ℕ} (F : Functional P n) (m : Molecule n) :
    Except String (Option DVal × Option DVal × Option DVal) :=
  match F.energy_densities, F.densitygrads with
  | some ed, some _ =>
      (stopCall F.nograd_densities m).map (fun ngd =>
        let gd := ed m
        (some (F.combine_densities gd ngd), some gd, some ngd))
  | some ed, none =>
      let gd := ed m
      Except.ok (some gd, some gd, none)
  | none, some _ =>
      (stopCall F.nograd_densities m).map (fun ngd =>
        (some ngd, none, some ngd))
  | none, none => Except.ok (none, none, none)

/-- The coefficient-input channel selection of `predict`
(`src/grad_dft/train.py` lines 155-172).  Returns
`(cinputs, grad_cinputs, nograd_cinputs)`. -/
def coeffChannels {P : Type} {n : ℕ} (F : Functional P n) (m : Molecule n) :
    Except String (Option DVal × Option DVal × Option DVal) :=
  match F.coefficient_inputs, F.coefficient_input_grads with
  | some ci, some _ =>
      (stopCall F.nograd_coefficient_inputs m).map (fun ngc =>
        let gc := ci m
        (some (F.combine_inputs gc ngc), some gc, some ngc))
  | some ci, none =>
      let gc := ci m
      Except.ok (some gc, some gc, none)
  | none, some _ =>
      (stopCall F.nograd_coefficient_inputs m).map (fun ngc =>
        (some ngc, none, some ngc))
  | none, none => Except.ok (none, none, none)

/-- One explicit-gradient contribution: when the hook is present its output
is added together with its transpose (`fock += vxc_expl +
vxc_expl.transpose(0, 2, 1)`, lines 175-185); an absent hook contributes
nothing. -/
def hookTerm {P : Type} {n : ℕ} (hk : Option (Hook P n)) (params : P)
    (m : Molecule n) (a b c : Option DVal) : SpinMat n :=
  match hk with
  | none => fun _ _ _ => 0
  | some h =>
      let v := h params m a b c
      fun s i j => v s i j + v s j i

/-- The exchange-correlation-only extra term (`src/grad_dft/train.py`
lines 187-194): requires `rep_tensor` (a `None` there makes `jnp.einsum`
inside `coulomb_potential` raise a `TypeError`), symmetrizes `rdm1`, adds the
classical Coulomb potential and the core Hamiltonian stacked over both spins
(`jnp.stack([molecule.h1e, molecule.h1e], axis=0)`). -/
def xcTerm {n : ℕ} (m : Molecule n) : Except String (SpinMat n) :=
  match m.rep_tensor with
  | none => Except.error "TypeError: rep_tensor is None, cannot build the classical Coulomb term"
  | some rep =>
      let rdm1 := symmetrize_rdm1 m.rdm1
      Except.ok (fun s i j => coulomb_potential rdm1 rep s i j + m.h1e i j)

/-- The predictor produced by `molecule_predictor`
(`src/grad_dft/train.py` lines 113-196): evaluate energy and its gradient
with respect to `rdm1`, symmetrize the gradient into the Fock matrix
(`fock = 1/2 * (fock + fock.transpose(0, 2, 1))`), compute the optional
feature channels, add the explicit-gradient hook contributions, and in
exchange-correlation-only mode add the classical Coulomb potential and the
stacked core Hamiltonian. -/
def predict {P : Type} {n : ℕ} (F : Functional P n) (params : P)
    (m : Molecule n) : Except String (ℚ × SpinMat n) :=
  let eg := F.energyAndGrad params m
  let energy := eg.1
  let fock0 : SpinMat n := fun s i j => 1 / 2 * (eg.2 s i j + eg.2 s j i)
  match densityChannels F m with
  | Except.error msg => Except.error msg
  | Except.ok (densities, grad_densities, nograd_densities) =>
    match coeffChannels F m with
    | Except.error msg => Except.error msg
    | Except.ok (cinputs, grad_cinputs, nograd_cinputs) =>
      let fock1 : SpinMat n := fun s i j => fock0 s i j +
        hookTerm F.densitygrads params m nograd_densities cinputs grad_densities s i j
      let fock2 : SpinMat n := fun s i j => fock1 s i j +
        hookTerm F.coefficient_input_grads params m nograd_cinputs grad_cinputs densities s i j
      if F.is_xc then
        match xcTerm m with
        | Except.error msg => Except.error msg
        | Except.ok xc => Except.ok (energy, fun s i j => fock2 s i j + xc s i j)
      else
        Except.ok (energy, fock2)

/-- Validity of a molecule snapshot: `rdm1` symmetric within each spin slice
(spec §3 invariant), a symmetric core Hamiltonian, and a two-electron
repulsion tensor symmetric under exchange of its first two indices — the
standard 8-fold symmetry of the integrals `mol.intor('int2e')` delivered by
the external quantum-chemistry engine. -/
def Molecule.Valid {n : ℕ} (m : Molecule n) : Prop :=
  (∀ s : Spin, (m.rdm1 s).IsSymm) ∧ m.h1e.IsSymm ∧
    (∀ rep, m.rep_tensor = some rep → ∀ p q r t, rep p q r t = rep q p r t)

/-! ### The DM21 gradient regularization (`src/grad_dft/train.py` lines 238-277)

Shapes: `F` and `C` are spin-indexed `N × N` matrices, `n` (`mo_occ`) and `e`
(`mo_energy`) are spin-indexed vectors of length `N`.  The spin count is kept
generic (`S`). -/

section DM21

variable {S N : ℕ}

/-- A spin-indexed vector, the shape of `mo_occ` and `mo_energy`. -/
abbrev SpinVec (S N : ℕ) := Fin S → Fin N → ℚ

/-- A spin-indexed square matrix with a generic spin count. -/
abbrev SpinMatS (S N : ℕ) := Fin S → Fin N → Fin N → ℚ

/-- `factors = jnp.einsum("sac,sab,scd->sbd", F, C, C) ** 2`. -/
def dm21_factors (F C : SpinMatS S N) : SpinMatS S N :=
  fun s b d => (∑ a : Fin N, ∑ c : Fin N, F s a c * C s a b * C s c d) ^ 2

/-- `numerator = n[:, :, None] - n[:, None, :]`. -/
def dm21_numerator (n : SpinVec S N) : SpinMatS S N :=
  fun s b d => n s b - n s d

/-- `denominator = e[:, :, None] - e[:, None, :]`. -/
def dm21_denominator (e : SpinVec S N) : SpinMatS S N :=
  fun s b d => e s b - e s d

/-- `mask = jnp.logical_and(jnp.abs(factors) > 0, jnp.abs(numerator) > 0)`. -/
def dm21_mask (F C : SpinMatS S N) (n : SpinVec S N) (s : Fin S) (b d : Fin N) :
    Prop :=
  0 < |dm21_factors F C s b d| ∧ 0 < |dm21_numerator n s b d|

instance (F C : SpinMatS S N) (n : SpinVec S N) (s : Fin S) (b d : Fin N) :
    Decidable (dm21_mask F C n s b d) := by
  unfold dm21_mask; infer_instance

/-- `safe_denominator = jnp.where(mask, denominator, 1.0)` followed by
`safe_denominator = jnp.where(jnp.abs(safe_denominator) > 0, safe_denominator, 1.0e-20)`. -/
def dm21_safe_denominator (F C : SpinMatS S N) (n e : SpinVec S N) :
    SpinMatS S N :=
  fun s b d =>
    let first := if dm21_mask F C n s b d then dm21_denominator e s b d else 1
    if 0 < |first| then first else 1 / 10 ^ 20

/-- `prefactors = numerator / safe_denominator`. -/
def dm21_prefactors (F C : SpinMatS S N) (n e : SpinVec S N) : SpinMatS S N :=
  fun s b d => dm21_numerator n s b d / dm21_safe_denominator F C n e s b d

/-- `jnp.clip(x, a_min=-10, a_max=10)`. -/
def clip10 (x : ℚ) : ℚ := min 10 (max (-10) x)

/-- `dm21_grad_regularization` (`src/grad_dft/train.py` lines 238-277):
`dE = clip(0.5 * sum(prefactors * factors), -10, 10)`, returning `dE ** 2`. -/
def dm21_grad_regularization (F C : SpinMatS S N) (n e : SpinVec S N) : ℚ :=
  let dE := clip10 (1 / 2 *
    ∑ s : Fin S, ∑ b : Fin N, ∑ d : Fin N,
      dm21_prefactors F C n e s b d * dm21_factors F C s b d)
  dE ^ 2

end DM21

end GradDFT

namespace PySCFInterface

open GradDFT

/-! ### Numpy-level model for `src/interface/pyscf.py`

Arrays at this layer are flat shape-tagged lists: `ndim` is the length of the
shape, `np.stack([a, a], axis=0)` prepends a `2` to the shape and repeats the
data, and scalar multiplication maps over the data. -/

/-- A numpy array: a shape together with its flattened data. -/
structure NpArr where
  shape : List ℕ
  data : List ℚ
deriving DecidableEq

/-- `arr.ndim`. -/
def NpArr.ndim (a : NpArr) : ℕ := a.shape.length

/-- Elementwise scalar multiplication `c * arr`. -/
def NpArr.scale (c : ℚ) (a : NpArr) : NpArr :=
  { shape := a.shape, data := a.data.map (fun x => c * x) }

/-- Elementwise scalar division `arr / c`. -/
def NpArr.divBy (c : ℚ) (a : NpArr) : NpArr :=
  { shape := a.shape, data := a.data.map (fun x => x / c) }

/-- `np.stack([a, a], axis=0)`: duplicate an array along a new leading axis.
For an array that is already a stack of spin slices, `np.stack(arr, axis=0)`
re-stacks its leading-axis slices and is the identity, which is how the
rank-3 branch of `_package_outputs` uses it. -/
def np_stack2 (a : NpArr) : NpArr :=
  { shape := 2 :: a.shape, data := a.data ++ a.data }

/-- The inputs of `_package_outputs` (`src/interface/pyscf.py` lines
422-474): the PySCF mean-field object.  `make_rdm1` and `get_init_guess` are
external PySCF computations, modelled by their results; `get_j` and
`get_veff` are opaque functions of the density matrix; `int2e` is the result
of `mol.intor('int2e')`.  The grid/AO outputs and the scalar energies of
`_package_outputs` do not participate in any claim and are omitted. -/
structure MeanField where
  mo_coeff : NpArr
  mo_energy : NpArr
  mo_occ : NpArr
  rdm1_made : NpArr
  init_guess : NpArr
  s1e : NpArr
  h1e : NpArr
  get_j : NpArr → NpArr
  get_veff : NpArr → NpArr
  int2e : NpArr

/-- The outputs of `_package_outputs` that the claims are about. -/
structure PackagedOutputs where
  dm : NpArr
  mo_coeff : NpArr
  mo_energy : NpArr
  mo_occ : NpArr
  vj : NpArr
  h1e : NpArr
  s1e : NpArr
  rep_tensor : Option NpArr
deriving DecidableEq

/-- The density matrix `_package_outputs` works on: `mf.make_rdm1(...)` when
`scf_iteration != 0`, else `mf.get_init_guess(...)`. -/
def effectiveDM (mf : MeanField) (scf_iteration : ℕ) : NpArr :=
  if scf_iteration ≠ 0 then mf.rdm1_made else mf.init_guess

/-- `_package_outputs` (`src/interface/pyscf.py` lines 422-474).
Rank-2 density matrix (restricted HF): `dm`, and `mo_occ` are halved and
stacked into two identical spin channels, `mo_coeff` and `mo_energy` are
duplicated unchanged.  Rank-3 (unrestricted): everything passes through
(`np.stack(arr, axis=0)` on an already-stacked array is the identity).  Any
other rank raises: the `raise RuntimeError(f"... {ao.shape}")` at line 452
itself fails with an `UnboundLocalError` because `ao` is only assigned at
line 454, so the function still terminates with an eager fatal exception.
`vj = 2 * mf.get_j(mf.mol, dm, hermi=1)` in all successful branches, and
`rep_tensor = mf.mol.intor('int2e')` only when not training (lines 460-463). -/
def _package_outputs (mf : MeanField) (training : Bool) (scf_iteration : ℕ) :
    Except String PackagedOutputs :=
  let dm := effectiveDM mf scf_iteration
  let rep_tensor : Option NpArr := if training then none else some mf.int2e
  if dm.ndim = 2 then
    let dm2 := np_stack2 (NpArr.divBy 2 dm)
    Except.ok
      { dm := dm2
        mo_coeff := np_stack2 mf.mo_coeff
        mo_energy := np_stack2 mf.mo_energy
        mo_occ := np_stack2 (NpArr.divBy 2 mf.mo_occ)
        vj := NpArr.scale 2 (mf.get_j dm2)
        h1e := mf.h1e
        s1e := mf.s1e
        rep_tensor := rep_tensor }
  else if dm.ndim = 3 then
    Except.ok
      { dm := dm
        mo_coeff := mf.mo_coeff
        mo_energy := mf.mo_energy
        mo_occ := mf.mo_occ
        vj := NpArr.scale 2 (mf.get_j dm)
        h1e := mf.h1e
        s1e := mf.s1e
        rep_tensor := rep_tensor }
  else
    Except.error "UnboundLocalError raised while formatting RuntimeError: invalid density matrix shape"

/-! ### Chi persistence (`fxx_save` / `save_molecule_chi`) and loading
(`fxx_loader`) -/

/-- The shape-relevant attributes of a molecule for `save_molecule_chi`:
`grid.coords.shape[0]`, `rdm1.shape[0]` (the spin axis) and `ao.shape[1]`
(the orbital count). -/
structure MolShapes where
  nGrid : ℕ
  nSpin : ℕ
  nOrb : ℕ
deriving DecidableEq

/-- What one molecule group of the HDF5 file records about chi: the shape of
the `chi` dataset and the `omegas` dataset. -/
structure ChiGroup where
  chiShape : List ℕ
  omegas : List ℚ
deriving DecidableEq

/-- `save_molecule_chi` (`src/interface/pyscf.py` lines 369-386): the `chi`
dataset is created with
`shape = (grid_coords.shape[0], len(omegas), molecule.rdm1.shape[0], molecule.ao.shape[1])`
and the `omegas` dataset holds the omega list. -/
def save_molecule_chi (m : MolShapes) (omegas : List ℚ) : ChiGroup :=
  { chiShape := [m.nGrid, omegas.length, m.nSpin, m.nOrb], omegas := omegas }

/-- The per-molecule branch of `fxx_save` (`src/interface/pyscf.py` lines
204-213): `save_molecule_chi` is only called when `len(omegas) > 1`;
otherwise the `chi` dataset is the placeholder `jnp.empty((1))` — shape
`(1,)` — and the `omegas` dataset still holds the list. -/
def fxx_save_group (m : MolShapes) (omegas : List ℚ) : ChiGroup :=
  if 1 < omegas.length then save_molecule_chi m omegas
  else { chiShape := [1], omegas := omegas }

/-- `list.index(w)`: index of the first occurrence (Python raises if absent;
here it is only evaluated under the membership assertion, mirroring the
source, so the out-of-range value is never used). -/
def indexOfQ : List ℚ → ℚ → ℕ
  | [], _ => 0
  | a :: l, w => if a = w then 0 else indexOfQ l w + 1

/-- The `chi` selection of `fxx_loader` (`src/interface/pyscf.py` lines
264-272).  The stored chi tensor is a list of grid rows, each row a list of
omega slices (axis 1 of the array; one slice is the remaining
`(n_spin, n_orbitals)` data, kept opaque as a flat list).
`config_omegas = None` loads the whole tensor; `config_omegas = []` loads no
chi; otherwise the `assert` demands every requested omega be a member of the
stored `omegas` list, and `jnp.stack([value[:, i] for i in indices], axis=1)`
reorders axis 1 to the requested omegas. -/
def fxx_load_chi (storedOmegas : List ℚ) (chiRows : List (List (List ℚ)))
    (config_omegas : Option (List ℚ)) :
    Except String (Option (List (List (List ℚ)))) :=
  match config_omegas with
  | none => Except.ok (some chiRows)
  | some [] => Except.ok none
  | some ws =>
      if ws.all (fun w => decide (w ∈ storedOmegas)) then
        Except.ok (some (chiRows.map (fun row =>
          ws.map (fun w => row.getD (indexOfQ storedOmegas w) []))))
      else
        Except.error "AssertionError: chi tensors for the requested omega list were not all precomputed in the molecule"

end PySCFInterface

namespace GradDFT

/-! ### Concrete instances used by the witness theorems -/

/-- A minimal concrete functional over one orbital: zero energy and
gradient, no optional capability present, not XC-only. -/
def trivialFunctional : Functional Unit 1 :=
  { energyAndGrad := fun _ _ => (0, fun _ _ _ => 0)
    energy_densities := none
    nograd_densities := none
    combine_densities := fun a _ => a
    coefficient_inputs := none
    nograd_coefficient_inputs := none
    combine_inputs := fun a _ => a
    densitygrads := none
    coefficient_input_grads := none
    is_xc := false }

/-- A one-orbital molecule with zero matrices and no repulsion tensor. -/
def trivialMolecule : Molecule 1 :=
  { rdm1 := fun _ _ _ => 0, h1e := fun _ _ => 0, rep_tensor := none }

/-- A one-orbital molecule that does carry a repulsion tensor. -/
def repMolecule : Molecule 1 :=
  { rdm1 := fun _ _ _ => 0, h1e := fun _ _ => 0,
    rep_tensor := some (fun _ _ _ _ => 0) }

end GradDFT

namespace GradDFT

/-! ## Helper lemmas -/

theorem hookTerm_symm {P : Type} {n : ℕ} (hk : Option (Hook P n)) (params : P)
    (m : Molecule n) (a b c : Option DVal) (s : Spin) (i j : Fin n) :
    hookTerm hk params m a b c s i j = hookTerm hk params m a b c s j i := by
  cases hk with
  | none => rfl
  | some hf => dsimp only [hookTerm]; ring

theorem coulomb_potential_symm {n : ℕ} (dm : SpinMat n) (rep : Rep n)
    (hrep : ∀ p q r t, rep p q r t = rep q p r t) (s : Spin) (p q : Fin n) :
    coulomb_potential dm rep s p q = coulomb_potential dm rep s q p := by
  unfold coulomb_potential
  exact Finset.sum_congr rfl (fun r _ =>
    Finset.sum_congr rfl (fun t _ => by rw [hrep]))

theorem stopCall_val_eq {n : ℕ} (d1 d2 : Option (Molecule n → DVal))
    (m : Molecule n)
    (h : d1.map (fun g => (g m).val) = d2.map (fun g => (g m).val)) :
    stopCall d1 m = stopCall d2 m := by
  cases d1 <;> cases d2 <;> simp_all [stopCall, callOpt, stopGradient, Except.map]

theorem densityChannels_ok {P : Type} {n : ℕ} (F : Functional P n)
    (m : Molecule n)
    (hd : F.densitygrads.isSome → F.nograd_densities.isSome) :
    ∃ t, densityChannels F m = Except.ok t := by
  unfold densityChannels
  rcases h1 : F.energy_densities with _ | ed <;> rcases h2 : F.densitygrads with _ | dg
  · exact ⟨_, rfl⟩
  · obtain ⟨g, hg⟩ := Option.isSome_iff_exists.mp (hd (by rw [h2]; rfl))
    simp [stopCall, callOpt, hg, Except.map]
  · exact ⟨_, rfl⟩
  · obtain ⟨g, hg⟩ := Option.isSome_iff_exists.mp (hd (by rw [h2]; rfl))
    simp [stopCall, callOpt, hg, Except.map]

theorem coeffChannels_ok {P : Type} {n : ℕ} (F : Functional P n)
    (m : Molecule n)
    (hc : F.coefficient_input_grads.isSome → F.nograd_coefficient_inputs.isSome) :
    ∃ t, coeffChannels F m = Except.ok t := by
  unfold coeffChannels
  rcases h1 : F.coefficient_inputs with _ | ci <;>
    rcases h2 : F.coefficient_input_grads with _ | cg
  · exact ⟨_, rfl⟩
  · obtain ⟨g, hg⟩ := Option.isSome_iff_exists.mp (hc (by rw [h2]; rfl))
    simp [stopCall, callOpt, hg, Except.map]
  · exact ⟨_, rfl⟩
  · obtain ⟨g, hg⟩ := Option.isSome_iff_exists.mp (hc (by rw [h2]; rfl))
    simp [stopCall, callOpt, hg, Except.map]

theorem predict_trivial_eval :
    predict trivialFunctional () trivialMolecule =
      Except.ok (0, fun _ _ _ => 0) := by
  show Except.ok ((0 : ℚ), fun (_ : Spin) (_ _ : Fin 1) =>
      1 / 2 * ((0 : ℚ) + 0) + 0 + 0) = Except.ok ((0 : ℚ), fun _ _ _ => 0)
  simp only [Except.ok.injEq, Prod.mk.injEq, true_and]
  funext s i j
  norm_num

theorem indexOfQ_lt_length {l : List ℚ} {w : ℚ} (h : w ∈ l) :
    PySCFInterface.indexOfQ l w < l.length := by
  induction l with
  | nil => cases h
  | cons a t ih =>
      unfold PySCFInterface.indexOfQ
      by_cases haw : a = w
      · simp [haw]
      · rcases List.mem_cons.mp h with h1 | h2
        · exact absurd h1.symm haw
        · simpa [haw, Nat.succ_lt_succ_iff] using ih h2

theorem fxx_load_chi_cons (stored : List ℚ) (chiRows : List (List (List ℚ)))
    (a : ℚ) (t : List ℚ) :
    PySCFInterface.fxx_load_chi stored chiRows (some (a :: t)) =
      if (a :: t).all (fun w => decide (w ∈ stored)) then
        Except.ok (some (chiRows.map (fun row =>
          (a :: t).map (fun w =>
            row.getD (PySCFInterface.indexOfQ stored w) []))))
      else
        Except.error "AssertionError: chi tensors for the requested omega list were not all precomputed in the molecule" :=
  rfl

theorem getD_indexOfQ {l : List ℚ} {w : ℚ} (h : w ∈ l) :
    l.getD (PySCFInterface.indexOfQ l w) 0 = w := by
  induction l with
  | nil => cases h
  | cons a t ih =>
      unfold PySCFInterface.indexOfQ
      by_cases haw : a = w
      · simp [haw]
      · rcases List.mem_cons.mp h with h1 | h2
        · exact absurd h1.symm haw
        · simpa [haw] using ih h2

end GradDFT

namespace GradDFT

/-! ## Claim theorems -/

/-- C10: for every molecule (`mo_occ`, `mo_energy`, `mo_coeff`) and every
Fock matrix `F`, `dm21_grad_regularization` never divides by zero — every
masked or zero denominator entry has been replaced by `1.0` or `1e-20`
before the division — and its value lies in `[0, 100]` because the summed
estimate is clipped to `[-10, 10]` before being squared. -/
theorem dm21_grad_regularization_safe {S N : ℕ} (F C : SpinMatS S N)
    (n e : SpinVec S N) :
    (∀ (s : Fin S) (b d : Fin N), dm21_safe_denominator F C n e s b d ≠ 0) ∧
    0 ≤ dm21_grad_regularization F C n e ∧
    dm21_grad_regularization F C n e ≤ 100 := by
  refine ⟨?_, ?_, ?_⟩
  · intro s b d
    unfold dm21_safe_denominator
    dsimp only
    set first := if dm21_mask F C n s b d then dm21_denominator e s b d else 1 with hf
    by_cases h : 0 < |first|
    · simpa [h] using abs_pos.mp h
    · simp only [h, if_false]
      norm_num
  · exact sq_nonneg _
  · unfold dm21_grad_regularization
    dsimp only
    have h1 : clip10 (1 / 2 *
        ∑ s : Fin S, ∑ b : Fin N, ∑ d : Fin N,
          dm21_prefactors F C n e s b d * dm21_factors F C s b d) ≤ 10 :=
      min_le_left _ _
    have h2 : (-10 : ℚ) ≤ clip10 (1 / 2 *
        ∑ s : Fin S, ∑ b : Fin N, ∑ d : Fin N,
          dm21_prefactors F C n e s b d * dm21_factors F C s b d) :=
      le_min (by norm_num) (le_max_left _ _)
    calc clip10 (1 / 2 *
          ∑ s : Fin S, ∑ b : Fin N, ∑ d : Fin N,
            dm21_prefactors F C n e s b d * dm21_factors F C s b d) ^ 2
        ≤ 10 ^ 2 := sq_le_sq' h2 h1
      _ ≤ 100 := by norm_num

/-- C6: requesting a non-empty omega list from `fxx_loader` fails with a
configuration error as soon as some requested omega is not an exact member
of the stored omega list; when every requested omega is stored, exactly the
chi slices of the requested omegas are loaded (axis 1 reordered to the
request), and an empty requested list loads no chi at all. -/
theorem fxx_loader_omega_selection (stored : List ℚ)
    (chiRows : List (List (List ℚ))) (ws : List ℚ) :
    ((∃ w ∈ ws, w ∉ stored) →
      ∃ msg, PySCFInterface.fxx_load_chi stored chiRows (some ws) =
        Except.error msg) ∧
    (ws ≠ [] → (∀ w ∈ ws, w ∈ stored) →
      ∃ out, PySCFInterface.fxx_load_chi stored chiRows (some ws) =
          Except.ok (some out) ∧
        out.length = chiRows.length ∧
        ∀ (g j : ℕ), j < ws.length →
          ∃ i, i < stored.length ∧ stored.getD i 0 = ws.getD j 0 ∧
            (out.getD g []).getD j [] = (chiRows.getD g []).getD i []) ∧
    PySCFInterface.fxx_load_chi stored chiRows (some []) = Except.ok none := by
  refine ⟨?_, ?_, rfl⟩
  · rintro ⟨w, hw, hnot⟩
    match ws, hw with
    | a :: t, hw =>
      have hcond : ¬ ((a :: t).all (fun w => decide (w ∈ stored)) = true) := by
        intro hall
        exact hnot (of_decide_eq_true (List.all_eq_true.mp hall w hw))
      rw [fxx_load_chi_cons, if_neg hcond]
      exact ⟨_, rfl⟩
  · intro hne hall
    match ws, hne with
    | a :: t, _ =>
      have hcond : (a :: t).all (fun w => decide (w ∈ stored)) = true :=
        List.all_eq_true.mpr (fun w hw => decide_eq_true (hall w hw))
      refine ⟨_, by rw [fxx_load_chi_cons, if_pos hcond], ?_, ?_⟩
      · exact List.length_map _ _
      · intro g j hj
        have hmem : (a :: t).getD j 0 ∈ a :: t := by
          rw [List.getD_eq_getElem _ _ hj]
          exact List.getElem_mem hj
        have hmem' : (a :: t).getD j 0 ∈ stored := hall _ hmem
        refine ⟨PySCFInterface.indexOfQ stored ((a :: t).getD j 0),
          indexOfQ_lt_length hmem', getD_indexOfQ hmem', ?_⟩
        by_cases hg : g < chiRows.length
        · have hg' : g < (chiRows.map (fun row =>
              (a :: t).map (fun w =>
                row.getD (PySCFInterface.indexOfQ stored w) []))).length := by
            simpa using hg
          rw [List.getD_eq_getElem _ _ hg', List.getElem_map,
            List.getD_eq_getElem _ _ hg]
          have hj' : j < ((a :: t).map (fun w =>
              chiRows[g].getD (PySCFInterface.indexOfQ stored w) [])).length := by
            simpa using hj
          rw [List.getD_eq_getElem _ _ hj', List.getElem_map,
            List.getD_eq_getElem _ _ hj]
        · have hg2 : chiRows.length ≤ g := Nat.le_of_not_lt hg
          have hg3 : (chiRows.map (fun row =>
              (a :: t).map (fun w =>
                row.getD (PySCFInterface.indexOfQ stored w) []))).length ≤ g := by
            simpa using hg2
          rw [List.getD_eq_default _ _ hg3, List.getD_eq_default _ _ hg2]
          simp [List.getD]

/-- C6 witness: concrete run with stored omegas `[0, 2]` — requesting `[3]`
errors, and requesting `[2]` loads exactly the second slice of each row. -/
theorem fxx_loader_omega_selection_witness :
    (∃ msg, PySCFInterface.fxx_load_chi [0, 2] [[[1], [2]], [[3], [4]]]
        (some [3]) = Except.error msg) ∧
    (∃ out, PySCFInterface.fxx_load_chi [0, 2] [[[1], [2]], [[3], [4]]]
        (some [2]) = Except.ok (some out) ∧
      out.length = 2 ∧
      ∀ (g j : ℕ), j < [(2 : ℚ)].length →
        ∃ i, i < [(0 : ℚ), 2].length ∧
          [(0 : ℚ), 2].getD i 0 = [(2 : ℚ)].getD j 0 ∧
          (out.getD g []).getD j [] =
            ([[[(1 : ℚ)], [2]], [[3], [4]]].getD g []).getD i []) := by
  constructor
  · exact (fxx_loader_omega_selection [0, 2] [[[1], [2]], [[3], [4]]]
      [3]).1 ⟨3, by decide, by decide⟩
  · have h := (fxx_loader_omega_selection [0, 2] [[[1], [2]], [[3], [4]]]
      [2]).2.1 (by decide) (by decide)
    obtain ⟨out, h1, h2, h3⟩ := h
    exact ⟨out, h1, by simpa using h2, h3⟩

/-- C7: a density matrix whose rank is neither 2 nor 3 makes
`_package_outputs` (hence `molecule_from_pyscf`) fail eagerly with a fatal
exception, never returning packaged molecule data.  (The `raise
RuntimeError` at `src/interface/pyscf.py:452` itself aborts with an
`UnboundLocalError` while formatting its message, because `ao` is only
assigned two lines later; either way the failure is eager and fatal.) -/
theorem package_outputs_rejects_bad_rank (mf : PySCFInterface.MeanField)
    (training : Bool) (scf_iteration : ℕ)
    (h2 : (PySCFInterface.effectiveDM mf scf_iteration).ndim ≠ 2)
    (h3 : (PySCFInterface.effectiveDM mf scf_iteration).ndim ≠ 3) :
    (∃ msg, PySCFInterface._package_outputs mf training scf_iteration =
      Except.error msg) ∧
    ∀ out, PySCFInterface._package_outputs mf training scf_iteration ≠
      Except.ok out := by
  unfold PySCFInterface._package_outputs
  rw [if_neg h2, if_neg h3]
  exact ⟨⟨_, rfl⟩, fun out h => by cases h⟩

/-- C7 witness: a concrete mean field whose density matrix is rank 1. -/
theorem package_outputs_rejects_bad_rank_witness :
    (∃ msg, PySCFInterface._package_outputs
      { mo_coeff := ⟨[2, 2], [1, 0, 0, 1]⟩
        mo_energy := ⟨[2], [0, 1]⟩
        mo_occ := ⟨[2], [2, 0]⟩
        rdm1_made := ⟨[4], [1, 0, 0, 1]⟩
        init_guess := ⟨[4], [1, 0, 0, 1]⟩
        s1e := ⟨[2, 2], [1, 0, 0, 1]⟩
        h1e := ⟨[2, 2], [1, 0, 0, 1]⟩
        get_j := fun a => a
        get_veff := fun a => a
        int2e := ⟨[2, 2, 2, 2], []⟩ } true 50 = Except.error msg) ∧
    ∀ out, PySCFInterface._package_outputs
      { mo_coeff := ⟨[2, 2], [1, 0, 0, 1]⟩
        mo_energy := ⟨[2], [0, 1]⟩
        mo_occ := ⟨[2], [2, 0]⟩
        rdm1_made := ⟨[4], [1, 0, 0, 1]⟩
        init_guess := ⟨[4], [1, 0, 0, 1]⟩
        s1e := ⟨[2, 2], [1, 0, 0, 1]⟩
        h1e := ⟨[2, 2], [1, 0, 0, 1]⟩
        get_j := fun a => a
        get_veff := fun a => a
        int2e := ⟨[2, 2, 2, 2], []⟩ } true 50 ≠ Except.ok out :=
  package_outputs_rejects_bad_rank _ true 50 (by decide) (by decide)

/-- C8: on a rank-2 (restricted, closed-shell) density matrix,
`_package_outputs` halves the density matrix and the occupations and stacks
each into two identical spin channels, duplicates `mo_coeff` and
`mo_energy`, and compensates the halving by doubling the Coulomb matrix
`vj`; a rank-3 density matrix passes through unchanged (the re-stacking of
an already spin-stacked array is the identity), with `vj` doubled the same
way. -/
theorem package_outputs_spin_channels (mf : PySCFInterface.MeanField)
    (training : Bool) (scf_iteration : ℕ) :
    ((PySCFInterface.effectiveDM mf scf_iteration).ndim = 2 →
      PySCFInterface._package_outputs mf training scf_iteration = Except.ok
        { dm := PySCFInterface.np_stack2
            (PySCFInterface.NpArr.divBy 2
              (PySCFInterface.effectiveDM mf scf_iteration))
          mo_coeff := PySCFInterface.np_stack2 mf.mo_coeff
          mo_energy := PySCFInterface.np_stack2 mf.mo_energy
          mo_occ := PySCFInterface.np_stack2
            (PySCFInterface.NpArr.divBy 2 mf.mo_occ)
          vj := PySCFInterface.NpArr.scale 2
            (mf.get_j (PySCFInterface.np_stack2
              (PySCFInterface.NpArr.divBy 2
                (PySCFInterface.effectiveDM mf scf_iteration))))
          h1e := mf.h1e
          s1e := mf.s1e
          rep_tensor := if training then none else some mf.int2e }) ∧
    ((PySCFInterface.effectiveDM mf scf_iteration).ndim = 3 →
      PySCFInterface._package_outputs mf training scf_iteration = Except.ok
        { dm := PySCFInterface.effectiveDM mf scf_iteration
          mo_coeff := mf.mo_coeff
          mo_energy := mf.mo_energy
          mo_occ := mf.mo_occ
          vj := PySCFInterface.NpArr.scale 2
            (mf.get_j (PySCFInterface.effectiveDM mf scf_iteration))
          h1e := mf.h1e
          s1e := mf.s1e
          rep_tensor := if training then none else some mf.int2e }) := by
  constructor
  · intro h2
    unfold PySCFInterface._package_outputs
    rw [if_pos h2]
  · intro h3
    have h2 : (PySCFInterface.effectiveDM mf scf_iteration).ndim ≠ 2 := by
      omega
    unfold PySCFInterface._package_outputs
    rw [if_neg h2, if_pos h3]

/-- C8 witness: a concrete restricted (rank-2) mean field, with the packaged
outputs evaluated. -/
theorem package_outputs_spin_channels_witness :
    PySCFInterface._package_outputs
      { mo_coeff := ⟨[2, 2], [1, 0, 0, 1]⟩
        mo_energy := ⟨[2], [-1, 1]⟩
        mo_occ := ⟨[2], [2, 0]⟩
        rdm1_made := ⟨[2, 2], [2, 0, 0, 0]⟩
        init_guess := ⟨[2, 2], [1, 0, 0, 1]⟩
        s1e := ⟨[2, 2], [1, 0, 0, 1]⟩
        h1e := ⟨[2, 2], [1, 0, 0, 1]⟩
        get_j := fun a => a
        get_veff := fun a => a
        int2e := ⟨[2, 2, 2, 2], []⟩ } false 50 = Except.ok
      { dm := ⟨[2, 2, 2], [1, 0, 0, 0, 1, 0, 0, 0]⟩
        mo_coeff := ⟨[2, 2, 2], [1, 0, 0, 1, 1, 0, 0, 1]⟩
        mo_energy := ⟨[2, 2], [-1, 1, -1, 1]⟩
        mo_occ := ⟨[2, 2], [1, 0, 1, 0]⟩
        vj := ⟨[2, 2, 2], [2, 0, 0, 0, 2, 0, 0, 0]⟩
        h1e := ⟨[2, 2], [1, 0, 0, 1]⟩
        s1e := ⟨[2, 2], [1, 0, 0, 1]⟩
        rep_tensor := some ⟨[2, 2, 2, 2], []⟩ } := by
  have h := (package_outputs_spin_channels
    { mo_coeff := ⟨[2, 2], [1, 0, 0, 1]⟩
      mo_energy := ⟨[2], [-1, 1]⟩
      mo_occ := ⟨[2], [2, 0]⟩
      rdm1_made := ⟨[2, 2], [2, 0, 0, 0]⟩
      init_guess := ⟨[2, 2], [1, 0, 0, 1]⟩
      s1e := ⟨[2, 2], [1, 0, 0, 1]⟩
      h1e := ⟨[2, 2], [1, 0, 0, 1]⟩
      get_j := fun a => a
      get_veff := fun a => a
      int2e := ⟨[2, 2, 2, 2], []⟩ } false 50).1 (by decide)
  rw [h]
  norm_num [PySCFInterface.np_stack2, PySCFInterface.NpArr.divBy,
    PySCFInterface.NpArr.scale, PySCFInterface.effectiveDM]

/-- C9 counterexample: for the omega list `[0]` (length 1) and a molecule
with 3 grid points, 2 spins and 5 orbitals, `fxx_save` stores the
placeholder `jnp.empty((1))` of shape `(1,)`, not a chi dataset of shape
`(n_grid_points, n_omegas, n_spin, n_orbitals) = (3, 1, 2, 5)`. -/
theorem fxx_save_single_omega_shape_mismatch :
    (PySCFInterface.fxx_save_group ⟨3, 2, 5⟩ [0]).chiShape ≠ [3, 1, 2, 5] := by
  decide

/-- C9 (amended): when the supplied omega list has length at least 2, the
persisted chi dataset has shape
`(n_grid_points, n_omegas, n_spin, n_orbitals)` with `n_omegas` the length
of the list; when the list has length 1 or 0 the stored chi is the
placeholder of shape `(1,)`; the stored omegas dataset always equals the
supplied list. -/
theorem fxx_save_chi_shape (m : PySCFInterface.MolShapes) (omegas : List ℚ) :
    (1 < omegas.length →
      (PySCFInterface.fxx_save_group m omegas).chiShape =
        [m.nGrid, omegas.length, m.nSpin, m.nOrb]) ∧
    (omegas.length ≤ 1 →
      (PySCFInterface.fxx_save_group m omegas).chiShape = [1]) ∧
    (PySCFInterface.fxx_save_group m omegas).omegas = omegas := by
  refine ⟨fun h => ?_, fun h => ?_, ?_⟩
  · unfold PySCFInterface.fxx_save_group
    rw [if_pos h]
    rfl
  · unfold PySCFInterface.fxx_save_group
    rw [if_neg (by omega)]
  · unfold PySCFInterface.fxx_save_group
    by_cases h : 1 < omegas.length
    · rw [if_pos h]; rfl
    · rw [if_neg h]

/-- C9 witness: a two-omega list on the same molecule gets the full 4-D chi
shape. -/
theorem fxx_save_chi_shape_witness :
    (PySCFInterface.fxx_save_group ⟨3, 2, 5⟩ [0, 2]).chiShape =
      [3, 2, 2, 5] :=
  (fxx_save_chi_shape ⟨3, 2, 5⟩ [0, 2]).1 (by decide)

/-- C1: for every parameter pytree and every valid molecule, every successful
result of the predictor has a Fock matrix that is symmetric in each spin
slice — through the symmetrized autodiff gradient, the explicit
density-gradient and coefficient-gradient contributions, and, in
exchange-correlation-only mode, the Coulomb-potential and core-Hamiltonian
terms. -/
theorem predict_fock_symmetric {P : Type} {n : ℕ} (F : Functional P n)
    (params : P) (m : Molecule n) (hval : m.Valid) (energy : ℚ)
    (fock : SpinMat n) (h : predict F params m = Except.ok (energy, fock)) :
    ∀ s : Spin, (fock s).IsSymm := by
  obtain ⟨hrdm, hh1e, hrep⟩ := hval
  unfold predict at h
  split at h
  · exact absurd h (by simp)
  · rename_i x d gd ngd heqd
    split at h
    · exact absurd h (by simp)
    · rename_i y c gc ngc heqc
      split at h
      · split at h
        · exact absurd h (by simp)
        · rename_i xc hxcterm
          unfold xcTerm at hxcterm
          split at hxcterm
          · exact absurd hxcterm (by simp)
          · rename_i z rep hreps
            simp only [Except.ok.injEq] at hxcterm
            subst hxcterm
            simp only [Except.ok.injEq, Prod.mk.injEq] at h
            obtain ⟨hE, hF⟩ := h
            subst hF
            intro s i j
            dsimp only
            have e1 := hookTerm_symm F.densitygrads params m ngd c gd s i j
            have e2 := hookTerm_symm F.coefficient_input_grads params m ngc gc d s i j
            have e3 := coulomb_potential_symm (symmetrize_rdm1 m.rdm1) rep
              (hrep rep hreps) s i j
            have e4 := hh1e i j
            rw [e1, e2, e3, e4]
            ring
      · rename_i hnxc
        simp only [Except.ok.injEq, Prod.mk.injEq] at h
        obtain ⟨hE, hF⟩ := h
        subst hF
        intro s i j
        dsimp only
        have e1 := hookTerm_symm F.densitygrads params m ngd c gd s i j
        have e2 := hookTerm_symm F.coefficient_input_grads params m ngc gc d s i j
        rw [e1, e2]
        ring

/-- C1 witness: the trivial functional on the trivial molecule, whose
predicted Fock matrix is the zero matrix, symmetric in both spin slices. -/
theorem predict_fock_symmetric_witness :
    trivialMolecule.Valid ∧
    ∀ s : Spin, Mat.IsSymm ((fun (_ : Spin) (_ _ : Fin 1) => (0 : ℚ)) s) := by
  have hv : trivialMolecule.Valid :=
    ⟨fun s i j => rfl, fun i j => rfl, fun rep h => Option.noConfusion h⟩
  exact ⟨hv, predict_fock_symmetric trivialFunctional () trivialMolecule hv 0
    (fun _ _ _ => 0) predict_trivial_eval⟩

/-- C2: under the FunctionalSpec invariant — an explicit-gradient hook is
only present when its without-grad generator is present — and a repulsion
tensor available whenever XC-only mode demands it, the predictor completes
without error for every combination of presence and absence of the four
optional feature channels, skipping each absent channel. -/
theorem predict_total {P : Type} {n : ℕ} (F : Functional P n) (params : P)
    (m : Molecule n)
    (hd : F.densitygrads.isSome → F.nograd_densities.isSome)
    (hc : F.coefficient_input_grads.isSome → F.nograd_coefficient_inputs.isSome)
    (hx : F.is_xc = true → m.rep_tensor.isSome) :
    ∃ r, predict F params m = Except.ok r := by
  obtain ⟨⟨d, gd, ngd⟩, hdc⟩ := densityChannels_ok F m hd
  obtain ⟨⟨c, gc, ngc⟩, hcc⟩ := coeffChannels_ok F m hc
  unfold predict
  rw [hdc]
  dsimp only
  rw [hcc]
  dsimp only
  by_cases hxc : F.is_xc = true
  · obtain ⟨rep, hrep⟩ := Option.isSome_iff_exists.mp (hx hxc)
    rw [hxc]
    unfold xcTerm
    rw [hrep]
    exact ⟨_, rfl⟩
  · rw [Bool.not_eq_true] at hxc
    rw [hxc]
    exact ⟨_, rfl⟩

/-- C2 witness: the trivial functional, with all four channels absent,
succeeds on the trivial molecule. -/
theorem predict_total_witness :
    ∃ r, predict trivialFunctional () trivialMolecule = Except.ok r :=
  predict_total trivialFunctional () trivialMolecule
    (fun h => by simp [trivialFunctional] at h)
    (fun h => by simp [trivialFunctional] at h)
    (fun h => by simp [trivialFunctional] at h)

/-- C3: two implementations of the without-grad channels that return the
same output value on the molecule give the identical (energy, Fock) result:
the without-grad outputs pass through `stop_gradient`, so only their primal
value — never their internal computation or its derivative information —
reaches the rest of the predictor. -/
theorem predict_nograd_value_dependence {P : Type} {n : ℕ}
    (F : Functional P n) (params : P) (m : Molecule n)
    (d1 d2 c1 c2 : Option (Molecule n → DVal))
    (hdv : d1.map (fun g => (g m).val) = d2.map (fun g => (g m).val))
    (hcv : c1.map (fun g => (g m).val) = c2.map (fun g => (g m).val)) :
    predict { F with nograd_densities := d1, nograd_coefficient_inputs := c1 }
      params m =
    predict { F with nograd_densities := d2, nograd_coefficient_inputs := c2 }
      params m := by
  have hsd := stopCall_val_eq d1 d2 m hdv
  have hsc := stopCall_val_eq c1 c2 m hcv
  unfold predict densityChannels coeffChannels
  dsimp only
  rw [hsd, hsc]

/-- C3 witness: two nograd-density generators with equal value `[1]` but
different derivative payloads produce identical predictor output. -/
theorem predict_nograd_value_dependence_witness :
    predict { trivialFunctional with
        nograd_densities := some (fun _ => ⟨[1], [5]⟩),
        nograd_coefficient_inputs := none } () trivialMolecule =
    predict { trivialFunctional with
        nograd_densities := some (fun _ => ⟨[1], [7]⟩),
        nograd_coefficient_inputs := none } () trivialMolecule :=
  predict_nograd_value_dependence trivialFunctional () trivialMolecule
    (some (fun _ => ⟨[1], [5]⟩)) (some (fun _ => ⟨[1], [7]⟩)) none none
    rfl rfl

/-- C4: with the repulsion tensor present, the predictor of an XC-only
functional returns exactly the result of the non-XC-only predictor with the
classical Coulomb potential (built from the symmetrized `rdm1` and the
repulsion tensor) and the core Hamiltonian, stacked identically across both
spin channels, added to the Fock matrix; with the flag false these two
terms are not added. -/
theorem predict_xc_decomposition {P : Type} {n : ℕ} (F : Functional P n)
    (params : P) (m : Molecule n) (rep : Rep n)
    (hrep : m.rep_tensor = some rep) :
    predict { F with is_xc := true } params m =
      (predict { F with is_xc := false } params m).map
        (fun ef => (ef.1, fun s i j => ef.2 s i j +
          coulomb_potential (symmetrize_rdm1 m.rdm1) rep s i j +
          m.h1e i j)) := by
  unfold predict
  dsimp only
  rw [show densityChannels { F with is_xc := true } m = densityChannels F m from rfl,
    show densityChannels { F with is_xc := false } m = densityChannels F m from rfl,
    show coeffChannels { F with is_xc := true } m = coeffChannels F m from rfl,
    show coeffChannels { F with is_xc := false } m = coeffChannels F m from rfl]
  cases hdc : densityChannels F m with
  | error msg => rfl
  | ok dtri =>
      obtain ⟨d, gd, ngd⟩ := dtri
      cases hcc : coeffChannels F m with
      | error msg => rfl
      | ok ctri =>
          obtain ⟨c, gc, ngc⟩ := ctri
          unfold xcTerm
          rw [hrep]
          simp only [reduceIte, Except.map, Except.ok.injEq, Prod.mk.injEq,
            true_and]
          rw [if_neg Bool.false_ne_true]
          simp only [Except.ok.injEq, Prod.mk.injEq, true_and]
          funext s i j
          ring

/-- C4 witness: the decomposition instantiated on the trivial functional and
the molecule carrying a (zero) repulsion tensor. -/
theorem predict_xc_decomposition_witness :
    predict { trivialFunctional with is_xc := true } () repMolecule =
      (predict { trivialFunctional with is_xc := false } () repMolecule).map
        (fun ef => (ef.1, fun s i j => ef.2 s i j +
          coulomb_potential (symmetrize_rdm1 repMolecule.rdm1)
            (fun _ _ _ _ => 0) s i j + repMolecule.h1e i j)) :=
  predict_xc_decomposition trivialFunctional () repMolecule
    (fun _ _ _ _ => 0) rfl

/-- C5: calling the predictor of an exchange-correlation-only functional on
a molecule without a two-electron repulsion tensor (as packaged in training
mode) fails with a fatal error and never produces a numerical result. -/
theorem predict_missing_rep_tensor_fatal {P : Type} {n : ℕ}
    (F : Functional P n) (params : P) (m : Molecule n)
    (hxc : F.is_xc = true) (hrep : m.rep_tensor = none) :
    (∃ msg, predict F params m = Except.error msg) ∧
    ∀ r, predict F params m ≠ Except.ok r := by
  have key : ∃ msg, predict F params m = Except.error msg := by
    unfold predict
    cases hdc : densityChannels F m with
    | error msg => exact ⟨msg, rfl⟩
    | ok dtri =>
        obtain ⟨d, gd, ngd⟩ := dtri
        cases hcc : coeffChannels F m with
        | error msg => exact ⟨msg, rfl⟩
        | ok ctri =>
            obtain ⟨c, gc, ngc⟩ := ctri
            rw [hxc]
            unfold xcTerm
            rw [hrep]
            exact ⟨_, rfl⟩
  refine ⟨key, ?_⟩
  obtain ⟨msg, hmsg⟩ := key
  intro r hr
  rw [hmsg] at hr
  exact Except.noConfusion hr

/-- C5 witness: the trivial functional switched to XC-only mode on the
molecule with no repulsion tensor. -/
theorem predict_missing_rep_tensor_fatal_witness :
    (∃ msg, predict { trivialFunctional with is_xc := true } ()
      trivialMolecule = Except.error msg) ∧
    ∀ r, predict { trivialFunctional with is_xc := true } ()
      trivialMolecule ≠ Except.ok r :=
  predict_missing_rep_tensor_fatal { trivialFunctional with is_xc := true } ()
    trivialMolecule rfl rfl

end GradDFT
